import Mathlib

/-!
# Verification of the vibekit ticket engine

Shallow embedding of the ticket document engine of the `vibedx/vibekit`
repository: the identifier resolver, the document parser, the field/section
mutator (`src/src/utils/ticket.js`) and the validator / auto-fixer
(`src/src/commands/lint/index.js`).

JavaScript strings are modelled as Lean `String`s; the JS string methods used
by the source (`trim`, `split`, `startsWith`, `endsWith`, `toUpperCase`,
`indexOf(':')`, `padStart`, …) are given explicit executable models over
`String.data` below, with a comment tying each to its JS counterpart.
File-system effects are factored out: each modelled function takes the file
contents / directory listing it would have read as an explicit argument, and
returns the text it would have written instead of writing it.
-/

namespace Vibekit

/-! ## JS string primitives -/

/-- JS `String.prototype.trim` over a character list (whitespace stripped from
both ends; `Char.isWhitespace` covers space, tab, CR, LF — the characters that
occur in ticket files). -/
def trimChars (l : List Char) : List Char :=
  ((l.dropWhile Char.isWhitespace).reverse.dropWhile Char.isWhitespace).reverse

/-- JS `s.trim()`. -/
def jsTrim (s : String) : String := ⟨trimChars s.data⟩

/-- Split a character list on a single separator character; mirrors JS
`s.split(sep)` for a one-character separator: always returns at least one
piece, `""` pieces for adjacent separators. -/
def splitOnChar (sep : Char) : List Char → List (List Char)
  | [] => [[]]
  | c :: rest =>
    match splitOnChar sep rest with
    | [] => [[]]
    | p :: ps => if c = sep then [] :: p :: ps else (c :: p) :: ps

/-- JS `content.split('\n')`. -/
def jsLines (s : String) : List String := (splitOnChar '\n' s.data).map (⟨·⟩)

/-- JS `a.startsWith(b)`. -/
def jsStartsWith (s pre : String) : Bool := pre.data.isPrefixOf s.data

/-- JS `a.endsWith(b)`. -/
def jsEndsWith (s suf : String) : Bool := suf.data.isSuffixOf s.data

/-- JS `s.toUpperCase()` (ASCII; the inputs the resolver sees are ASCII ids). -/
def jsToUpper (s : String) : String := ⟨s.data.map Char.toUpper⟩

/-- JS `s.toLowerCase()` (ASCII). -/
def jsToLower (s : String) : String := ⟨s.data.map Char.toLower⟩

/-- JS `Array.prototype.findIndex`, as an `Option Nat` (JS returns `-1` for
"not found"; the source only ever compares the result against `-1`). -/
def jsFindIndex (p : α → Bool) : List α → Option Nat
  | [] => none
  | x :: rest => if p x then some 0 else (jsFindIndex p rest).map (· + 1)

/-- JS truthiness of an optional string property: `undefined` and `""` are
falsy, every other string is truthy. -/
def truthy : Option String → Bool
  | none => false
  | some s => s ≠ ""

/-- Lookup in a JS-object model (association list with unique keys, first
match wins). -/
def jsGet (m : List (String × String)) (k : String) : Option String :=
  (m.find? fun p => p.1 = k).map (·.2)

/-- JS `obj[key] = value` on an object modelled as an association list: an
existing key keeps its position and gets the new value, a new key is appended
at the end (JS property-insertion order). -/
def jsSet (m : List (String × String)) (k v : String) : List (String × String) :=
  match m with
  | [] => [(k, v)]
  | (k', v') :: rest => if k' = k then (k', v) :: rest else (k', v') :: jsSet rest k v

/-- `metadata.id || 'TKT-000'`-style lookup: falsy (absent or empty) falls back
to the default. -/
def jsGetOr (m : List (String × String)) (k dflt : String) : String :=
  match jsGet m k with
  | some v => if v ≠ "" then v else dflt
  | none => dflt

/-! ## Identifier resolver (`resolveTicketId`, src/src/utils/ticket.js:11-65)

The file system is abstracted into two arguments: `dirExists` (does
`.vibe/tickets` exist) and `dirFiles` (its listing, in directory order).
The thrown `Invalid ticket ID format` error is the `.error` case. -/

/-- The result object `{id, file, path}`; `path` is `ticketsDir/file`, so it is
determined by `file` and omitted. -/
structure TicketIdentity where
  id : String
  file : String
deriving DecidableEq, Repr

/-- `input.toString().trim().toUpperCase()` followed by stripping a leading
`TKT-` prefix (ticket.js:27-32; `replace('TKT-', '')` guarded by
`startsWith('TKT-')` removes exactly the first four characters). -/
def cleanedInput (input : String) : String :=
  let c := jsToUpper (jsTrim input)
  if jsStartsWith c "TKT-" then ⟨c.data.drop 4⟩ else c

/-- The regex test `/^\d+$/.test(cleanInput)` (ticket.js:35): at least one
character, all ASCII digits. -/
def wellFormedId (input : String) : Bool :=
  cleanedInput input ≠ "" ∧ (cleanedInput input).data.all Char.isDigit

/-- `cleanInput.padStart(3, '0')` (ticket.js:40). -/
def padStart3 (s : String) : String :=
  if s.data.length ≥ 3 then s else ⟨List.replicate (3 - s.data.length) '0' ++ s.data⟩

/-- The canonical id `TKT-NNN` built at ticket.js:41. -/
def canonicalId (input : String) : String := "TKT-" ++ padStart3 (cleanedInput input)

/-- Model of `resolveTicketId` (ticket.js:11-65). `input` is the string form of
the caller's identifier; empty input is the only falsy string. The `ENOENT`
catch (ticket.js:57) cannot fire once `dirExists`/`dirFiles` stand in for the
directory, and the `EACCES` path is out of scope of the model. -/
def resolveTicketId (dirExists : Bool) (dirFiles : List String) (input : String) :
    Except String (Option TicketIdentity) :=
  if input = "" then .ok none
  else if ¬ dirExists then .ok none
  else
    let files := dirFiles.filter fun f => jsEndsWith f ".md"
    if ¬ wellFormedId input then
      .error ("Invalid ticket ID format: " ++ input ++ ". Expected numeric ID or TKT-XXX format.")
    else
      let fullId := canonicalId input
      match files.find? (fun file => jsStartsWith file fullId) with
      | some file => .ok (some ⟨fullId, file⟩)
      | none => .ok none

/-! ## Document parser (`parseTicket`, src/src/utils/ticket.js:73-174)

`parseTicket` reads the file itself; the model takes the file contents
(`content`) directly, so the fs-error translations at ticket.js:161-173 are
out of the model. Every `throw` becomes the `.error` case, carrying the
thrown message. The `console.warn` diagnostics (invalid YAML lines, missing
`id`/`title`) are recorded in the returned structure instead. -/

/-- The parsed document (ticket.js:153-159), together with the warnings the
source prints: `invalidLines` holds the 1-based file line numbers pushed at
ticket.js:133/136 (`i + 2`: `i` is the 0-based index into `yamlLines`, which
start at file line 2). -/
structure ParsedTicket where
  metadata : List (String × String)
  yamlLines : List String
  contentLines : List String
  fullContent : String
  invalidLines : List Nat
  warnMissingId : Bool
  warnMissingTitle : Bool
deriving DecidableEq, Repr

/-- The header-line loop (ticket.js:121-138). `i` is the loop index,
`md`/`inv` accumulate `metadata` and `invalidLines`. A line is split at its
first `:` (`line.indexOf(':')`); `splitOnChar` yields a singleton exactly when
there is no colon, and otherwise the key is the part before the first colon
and the value everything after it (re-joining the remaining pieces). -/
def parseHeaderAux (i : Nat) (md : List (String × String)) (inv : List Nat) :
    List String → List (String × String) × List Nat
  | [] => (md, inv)
  | line :: rest =>
    if jsTrim line = "" then parseHeaderAux (i + 1) md inv rest
    else
      match splitOnChar ':' line.data with
      | [] => parseHeaderAux (i + 1) md inv rest
      | [_] => parseHeaderAux (i + 1) md (inv ++ [i + 2]) rest
      | k :: restParts =>
        let key := jsTrim ⟨k⟩
        let value := jsTrim ⟨List.intercalate [':'] restParts⟩
        if key ≠ "" then parseHeaderAux (i + 1) (jsSet md key value) inv rest
        else parseHeaderAux (i + 1) md (inv ++ [i + 2]) rest

/-- A header line the loop records as invalid: non-blank, and either without a
colon or with an empty (trimmed) key. -/
def badHeaderLine (line : String) : Bool :=
  jsTrim line != "" &&
    match splitOnChar ':' line.data with
    | [] => false
    | [_] => true
    | k :: _ => jsTrim ⟨k⟩ == ""

/-- The 1-based file line numbers of the invalid header lines among
`yamlLines`, starting at loop index `i` (specification-side mirror of the
`invalidLines` accumulation, used to characterise it). -/
def badLineNums (i : Nat) : List String → List Nat
  | [] => []
  | line :: rest =>
    if badHeaderLine line then (i + 2) :: badLineNums (i + 1) rest
    else badLineNums (i + 1) rest

/-- Model of `parseTicket` on the file contents (ticket.js:92-159): the empty
check (`!content.trim()`), the three frontmatter-structure checks, then the
manual header parse. `yamlEndIndex` is the first index `> 0` holding exactly
`---`; with `jsFindIndex` over `lines.drop 1` returning `j`, that index is
`j + 1`, so `yamlLines = lines.slice(1, j+1)` and
`contentLines = lines.slice(j+2)`. -/
def parseTicketContent (content : String) : Except String ParsedTicket :=
  if jsTrim content = "" then .error "Ticket file is empty"
  else
    let lines := jsLines content
    if lines.length < 3 then
      .error "Invalid ticket format: file too short to contain valid frontmatter"
    else if lines.head? ≠ some "---" then
      .error "Invalid ticket format: missing opening YAML frontmatter delimiter (---)"
    else
      match jsFindIndex (fun line => line = "---") (lines.drop 1) with
      | none => .error "Invalid ticket format: missing closing YAML frontmatter delimiter (---)"
      | some j =>
        let yamlLines := (lines.drop 1).take j
        let contentLines := lines.drop (j + 2)
        let parsed := parseHeaderAux 0 [] [] yamlLines
        .ok { metadata := parsed.1
              yamlLines := yamlLines
              contentLines := contentLines
              fullContent := content
              invalidLines := parsed.2
              warnMissingId := ¬ truthy (jsGet parsed.1 "id")
              warnMissingTitle := ¬ truthy (jsGet parsed.1 "title") }

/-! ## Section replacement (`replaceSectionContent`, ticket.js:362-400, and
`hasSectionContent`, ticket.js:408-422) -/

/-- The `findIndex` predicate at ticket.js:375-377: a truthy (non-empty) line
whose trimmed text equals the trimmed section header. -/
def matchesHeader (sectionHeader line : String) : Bool :=
  line != "" && jsTrim line == jsTrim sectionHeader

/-- The regex test `lines[i].match(/^##\s+/)` at ticket.js:386: the line
starts with `##` followed by at least one whitespace character. (Since the
pattern has nothing after `\s+`, greediness is irrelevant: only the third
character matters.) -/
def isSectionLine (line : String) : Bool :=
  match line.data with
  | '#' :: '#' :: c :: _ => c.isWhitespace
  | _ => false

/-- The `nextSectionIndex` scan (ticket.js:384-390): first index after
`sectionIndex` holding a truthy line matching `/^##\s+/`, else `lines.length`. -/
def nextSectionIdx (lines : List String) (sectionIndex : Nat) : Nat :=
  match jsFindIndex (fun l => l != "" && isSectionLine l) (lines.drop (sectionIndex + 1)) with
  | some k => sectionIndex + 1 + k
  | none => lines.length

/-- The replacement frame (ticket.js:397): the trimmed new content between one
blank line before and one after; just the two blank lines when it trims empty. -/
def sectionFrame (newContent : String) : List String :=
  if jsTrim newContent ≠ "" then ["", jsTrim newContent, ""] else ["", ""]

/-- Core of `replaceSectionContent` after its argument checks
(ticket.js:375-399). -/
def replaceSectionCore (lines : List String) (sectionHeader newContent : String) : List String :=
  match jsFindIndex (matchesHeader sectionHeader) lines with
  | none => lines
  | some sectionIndex =>
    lines.take (sectionIndex + 1) ++ sectionFrame newContent ++
      lines.drop (nextSectionIdx lines sectionIndex)

/-- `replaceSectionContent` (ticket.js:362-400). The `lines`/`newContent` type
checks always pass in the model; the empty-header check (ticket.js:367-369)
is the `.error` case. -/
def replaceSectionContent (lines : List String) (sectionHeader newContent : String) :
    Except String (List String) :=
  if jsTrim sectionHeader = "" then .error "Section header must be a non-empty string"
  else .ok (replaceSectionCore lines sectionHeader newContent)

/-- `hasSectionContent` (ticket.js:408-422). -/
def hasSectionContent (lines : List String) (sectionHeader : String) : Bool :=
  if jsTrim sectionHeader = "" then false
  else (jsFindIndex (matchesHeader sectionHeader) lines).isSome

/-- The lines of the section headed at index `a`: the header line and
everything up to (not including) the next `## `-line or end of document. -/
def sectionSlice (lines : List String) (a : Nat) : List String :=
  (lines.drop a).take (nextSectionIdx lines a - a)

/-! ## Field mutator (`updateTicket`, ticket.js:184-353)

The pure text transformation of `updateTicket`: file existence/permission
checks and the write/rename themselves are fs effects; the model returns what
would be written. `updates` is the JS updates object as an association list in
property order; `timestamp` stands for `new Date().toISOString()`. -/

/-- `needsQuotes` for a title (ticket.js:259): the regex
`/[:\[\]{}|>]/.test(cleanTitle) || cleanTitle.includes('#')`. -/
def needsQuotes (t : String) : Bool :=
  t.data.any fun c =>
    c = ':' ∨ c = '[' ∨ c = ']' ∨ c = '\x7b' ∨ c = '\x7d' ∨ c = '|' ∨ c = '>' ∨ c = '#'

/-- `cleanTitle.replace(/"/g, '\\"')` (ticket.js:260): every double quote gets
a backslash. -/
def escapeQuotes (t : String) : String :=
  ⟨t.data.flatMap fun c => if c = '"' then ['\\', '"'] else [c]⟩

/-- The formatted title value (ticket.js:258-260). -/
def formatTitle (title : String) : String :=
  let cleanTitle := jsTrim title
  if needsQuotes cleanTitle then "\"" ++ escapeQuotes cleanTitle ++ "\"" else cleanTitle

/-- The in-place YAML update loop (ticket.js:245-264). Returns the rewritten
lines and the `(updatedTimestamp, updatedSlug, updatedTitle)` flags. Each
iteration rewrites its own line only and the flags are disjunctions, so the
loop is modelled by structural recursion. -/
def updateYamlLoop (ticketId : String) (slugU titleU : Option String) (timestamp : String) :
    List String → List String × (Bool × Bool × Bool)
  | [] => ([], (false, false, false))
  | line :: rest =>
    let r := updateYamlLoop ticketId slugU titleU timestamp rest
    if jsStartsWith line "updated_at:" then
      (("updated_at: " ++ timestamp) :: r.1, (true, r.2.2.1, r.2.2.2))
    else if jsStartsWith line "slug:" && truthy slugU then
      (("slug: " ++ ticketId ++ "-" ++ slugU.getD "") :: r.1, (r.2.1, true, r.2.2.2))
    else if jsStartsWith line "title:" && truthy titleU then
      (("title: " ++ formatTitle (titleU.getD "")) :: r.1, (r.2.1, r.2.2.1, true))
    else (line :: r.1, r.2)

/-- The transformation one loop iteration applies to its own line
(ticket.js:246-263, the body of the `for` without the flags); used to
characterise `updateYamlLoop`. -/
def transformYamlLine (ticketId : String) (slugU titleU : Option String) (timestamp line : String) :
    String :=
  if jsStartsWith line "updated_at:" then "updated_at: " ++ timestamp
  else if jsStartsWith line "slug:" && truthy slugU then
    "slug: " ++ ticketId ++ "-" ++ slugU.getD ""
  else if jsStartsWith line "title:" && truthy titleU then
    "title: " ++ formatTitle (titleU.getD "")
  else line

/-- The full updated YAML block: the loop above plus the append-if-missing
steps (ticket.js:266-282). `ticketId` is `ticketData.metadata.id || 'TKT-000'`. -/
def finalYamlLines (metadata : List (String × String)) (yamlLines : List String)
    (updates : List (String × String)) (timestamp : String) : List String :=
  let ticketId := jsGetOr metadata "id" "TKT-000"
  let slugU := jsGet updates "slug"
  let titleU := jsGet updates "title"
  let r := updateYamlLoop ticketId slugU titleU timestamp yamlLines
  let l1 := if ¬ r.2.1 then r.1 ++ ["updated_at: " ++ timestamp] else r.1
  let l2 := if truthy slugU ∧ ¬ r.2.2.1 then
      l1 ++ ["slug: " ++ ticketId ++ "-" ++ slugU.getD ""] else l1
  if truthy titleU ∧ ¬ r.2.2.2 then
    l2 ++ ["title: " ++ formatTitle (titleU.getD "")] else l2

/-- The section-update pass (ticket.js:288-296): for each update key except
`slug`, with a truthy value, replace the body of section `## key` when that
section exists. `Object.keys` iterates in property order, i.e. list order. -/
def applySectionUpdates (contentLines : List String) : List (String × String) → List String
  | [] => contentLines
  | (key, value) :: rest =>
    let next :=
      if key ≠ "slug" ∧ value ≠ "" then
        if hasSectionContent contentLines ("## " ++ key) then
          replaceSectionCore contentLines ("## " ++ key) value
        else contentLines
      else contentLines
    applySectionUpdates next rest

/-- Outcome of `updateTicket`: the empty-updates early return (ticket.js:198-200,
no write at all), a thrown error, or a write of `content` — to a new file name
when the slug update forces a rename (ticket.js:217-234). -/
inductive UpdateOutcome where
  | noWrite (message : String)
  | err (message : String)
  | write (newFileName : Option String) (content : String)
deriving DecidableEq, Repr

/-- Model of `updateTicket` (ticket.js:184-353) as a pure text transformation
of the parsed `ticketData`. The rename-collision check (ticket.js:231-233) is
an fs effect left to the caller in the model. -/
def updateTicketModel (ticketData : ParsedTicket) (updates : List (String × String))
    (timestamp : String) : UpdateOutcome :=
  if updates.length = 0 then .noWrite "No updates to apply"
  else
    let slugU := jsGet updates "slug"
    let newFileName : Except String (Option String) :=
      match slugU with
      | some s =>
        if s ≠ "" then
          let cleanSlug := jsTrim s
          if cleanSlug = "" then .error "Slug cannot be empty"
          else .ok (some (jsGetOr ticketData.metadata "id" "TKT-000" ++ "-" ++ cleanSlug ++ ".md"))
        else .ok none
      | none => .ok none
    match newFileName with
    | .error m => .err m
    | .ok fn =>
      let yaml := finalYamlLines ticketData.metadata ticketData.yamlLines updates timestamp
      let contentLines := applySectionUpdates ticketData.contentLines updates
      .write fn (String.intercalate "\n" (["---"] ++ yaml ++ ["---"] ++ contentLines))

/-- The file text after an update outcome, given the original text: only a
`.write` changes it. -/
def resultingFileText (original : String) : UpdateOutcome → String
  | .write _ content => content
  | _ => original

/-! ## Validator (`validateTicketFile` and helpers, src/src/commands/lint/index.js)

Externals are made explicit: `yamlLoad` stands for the js-yaml `load` call on
the frontmatter text (`.error` = yaml syntax error, `.ok none` = a non-object
result such as `undefined`, `.ok (some fm)` = a flat string mapping — ticket
frontmatter values are modelled as strings); template-derived data
(`getSectionDefaults`, `getFrontmatterDefaults`, both of which read the
template file) enter through `LintConfig`; `writeOk` is the success of the
`fs.writeFileSync` in fix mode; `now` is `new Date().toISOString()`. -/

/-- Substring containment over character lists. -/
def containsSub (pat : List Char) : List Char → Bool
  | [] => pat.isEmpty
  | c :: rest => pat.isPrefixOf (c :: rest) || containsSub pat rest

/-- JS `a.includes(b)` (substring containment). -/
def jsIncludes (s pat : String) : Bool := containsSub pat.data s.data

/-- Multi-character JS `s.split(sep)` (used for `content.split('---')`):
leftmost, non-overlapping occurrences. Fuel-based so that it reduces by
`rfl`; the fuel is the string length, which bounds the number of steps. -/
def jsSplitListAux (sep : List Char) : Nat → List Char → List (List Char)
  | _, [] => [[]]
  | 0, l => [l]
  | fuel + 1, c :: rest =>
    if sep ≠ [] ∧ sep.isPrefixOf (c :: rest) then
      [] :: jsSplitListAux sep fuel ((c :: rest).drop sep.length)
    else
      match jsSplitListAux sep fuel rest with
      | [] => [[]]
      | p :: ps => (c :: p) :: ps

/-- JS `s.split(sep)` for a non-empty string separator. -/
def jsSplit (sep s : String) : List String :=
  (jsSplitListAux sep.data s.data.length s.data).map (⟨·⟩)

/-- The enumerations and template-derived defaults the linter receives.
`status_options` / `priority_options` model `config.tickets?.status_options`
etc. (`none` = absent); `sectionDefaults` / `frontmatterDefaults` are the
results of `getSectionDefaults` / `getFrontmatterDefaults`, which only read
the template file. -/
structure LintConfig where
  status_options : Option (List String)
  priority_options : Option (List String)
  sectionDefaults : List (String × String)
  frontmatterDefaults : List (String × String)
deriving Repr

/-- The per-file validation `result` record (lint/index.js:355-361). -/
structure LintResult where
  filename : String
  errors : List String
  warnings : List String
  fixed : Bool
  missingSections : List String
deriving DecidableEq, Repr

/-- The regex `/^TKT-\d{3}$/` (lint/index.js:130). -/
def isTicketIdFormat (s : String) : Bool :=
  match s.data with
  | ['T', 'K', 'T', '-', a, b, c] => a.isDigit && b.isDigit && c.isDigit
  | _ => false

/-- Modelled from the spec: `created_at`/`updated_at` "must parse as valid
calendar dates". The source calls the JS builtin `Date.parse` (not repository
code); the model recognises the ISO-8601 `YYYY-MM-DDTHH:MM:SS.mmmZ` timestamps
the system itself writes, which is the only shape the claims exercise. -/
def jsDateParseOk (s : String) : Bool :=
  match s.data with
  | [y1, y2, y3, y4, '-', mo1, mo2, '-', d1, d2, 'T',
     h1, h2, ':', mi1, mi2, ':', se1, se2, '.', ms1, ms2, ms3, 'Z'] =>
    y1.isDigit && y2.isDigit && y3.isDigit && y4.isDigit && mo1.isDigit && mo2.isDigit &&
    d1.isDigit && d2.isDigit && h1.isDigit && h2.isDigit && mi1.isDigit && mi2.isDigit &&
    se1.isDigit && se2.isDigit && ms1.isDigit && ms2.isDigit && ms3.isDigit
  | _ => false

/-- `validateFrontmatter` (lint/index.js:105-149): required-field presence,
`status`/`priority` enum membership, id format, filename-id consistency, date
well-formedness — pushed in source order. Each guarded check runs only when
its field is truthy. -/
def validateFrontmatterModel (fm : List (String × String)) (filename : String)
    (cfg : LintConfig) (requiredFields : List String) : List String :=
  let missingErrs := requiredFields.filterMap fun field =>
    if ¬ truthy (jsGet fm field) then some ("Missing required frontmatter field: " ++ field)
    else none
  let validStatuses := cfg.status_options.getD ["open", "in_progress", "review", "done"]
  let validPriorities := cfg.priority_options.getD ["low", "medium", "high", "urgent"]
  let statusErrs :=
    match jsGet fm "status" with
    | some v =>
      if v ≠ "" ∧ v ∉ validStatuses then
        ["Invalid status \"" ++ v ++ "\". Must be one of: " ++ String.intercalate ", " validStatuses]
      else []
    | none => []
  let priorityErrs :=
    match jsGet fm "priority" with
    | some v =>
      if v ≠ "" ∧ v ∉ validPriorities then
        ["Invalid priority \"" ++ v ++ "\". Must be one of: " ++
          String.intercalate ", " validPriorities]
      else []
    | none => []
  let idErrs :=
    match jsGet fm "id" with
    | some v =>
      if v ≠ "" ∧ ¬ isTicketIdFormat v then
        ["Invalid ID format \"" ++ v ++ "\". Must follow pattern: TKT-XXX (e.g., TKT-001)"]
      else []
    | none => []
  let fileErrs :=
    match jsGet fm "id" with
    | some v =>
      if v ≠ "" ∧ ¬ jsStartsWith filename v then
        ["Filename should start with ticket ID \"" ++ v ++ "\""]
      else []
    | none => []
  let createdErrs :=
    match jsGet fm "created_at" with
    | some v => if v ≠ "" ∧ ¬ jsDateParseOk v then ["Invalid created_at date format: " ++ v] else []
    | none => []
  let updatedErrs :=
    match jsGet fm "updated_at" with
    | some v => if v ≠ "" ∧ ¬ jsDateParseOk v then ["Invalid updated_at date format: " ++ v] else []
    | none => []
  missingErrs ++ statusErrs ++ priorityErrs ++ idErrs ++ fileErrs ++ createdErrs ++ updatedErrs

/-- The suffixes of the text that start right after a `'\n'` — the positions
(other than the very start) where the `m`-flagged `^` anchor can match. -/
def lineStartSuffixes : List Char → List (List Char)
  | [] => []
  | c :: rest =>
    if c = '\n' then rest :: lineStartSuffixes rest else lineStartSuffixes rest

/-- The test `new RegExp('^##\\s+' + section, 'm').test(content)`
(lint/index.js:162-163) for a literal section name (the source interpolates
the name into the pattern; ticket section names contain no regex
metacharacters): some line-start position is followed by `##`, at least one
whitespace character (`\s+` may span newlines), then the section name. -/
def regexTestSectionHeader (sectionName content : String) : Bool :=
  (content.data :: lineStartSuffixes content.data).any fun suf =>
    match suf with
    | '#' :: '#' :: rest =>
      decide (rest.takeWhile Char.isWhitespace ≠ []) &&
        sectionName.data.isPrefixOf (rest.dropWhile Char.isWhitespace)
    | _ => false

/-- `content.split(/^##\s+/m)` (lint/index.js:170): split at every
line-start-anchored `##` followed by a maximal whitespace run (which the
greedy `\s+` consumes, possibly across newlines). The `Bool` argument tracks
whether the current position is a line start; fuel = remaining length. -/
def splitSectionsAux : Nat → Bool → List Char → List Char → List (List Char)
  | _, _, acc, [] => [acc.reverse]
  | 0, _, acc, l => [acc.reverse ++ l]
  | fuel + 1, true, acc, '#' :: '#' :: c :: rest =>
    if c.isWhitespace then
      let ws := (c :: rest).takeWhile Char.isWhitespace
      acc.reverse ::
        splitSectionsAux fuel (decide (ws.getLast? = some '\n')) []
          ((c :: rest).dropWhile Char.isWhitespace)
    else splitSectionsAux fuel false ('#' :: acc) ('#' :: c :: rest)
  | fuel + 1, _, acc, ch :: rest => splitSectionsAux fuel (ch = '\n') (ch :: acc) rest

/-- `content.split(/^##\s+/m)` on a string. -/
def splitSections (s : String) : List String :=
  (splitSectionsAux s.data.length true [] s.data).map (⟨·⟩)

/-- `validateSections` (lint/index.js:157-182): missing-section errors (with
the names collected into `missingSections`), then the empty/too-short check
over the pieces of the `^##\s+` split — note the source skips the piece at
index 0 of the *filtered* list, and re-splits each piece, taking piece 0. -/
def validateSectionsModel (content : String) (requiredSections : List String) :
    List String × List String :=
  let missing := requiredSections.filter fun s => ¬ regexTestSectionHeader s content
  let missingErrs := missing.map fun s => "Missing required section: ## " ++ s
  let sections := (splitSections content).filter fun s => jsTrim s ≠ ""
  let emptyErrs := (sections.drop 1).filterMap fun sec =>
    let sectionContent := jsTrim ((splitSections sec).headD "")
    let sectionTitle := (jsLines sectionContent).headD ""
    let sectionBody := jsTrim ⟨sectionContent.data.drop sectionTitle.data.length⟩
    if sectionBody = "" ∨ sectionBody.data.length < 10 then
      some ("Section \"## " ++ sectionTitle ++ "\" appears to be empty or too short")
    else none
  (missingErrs ++ emptyErrs, missing)

/-! ## Auto-fixer (`fixMissingFrontmatter` lint/index.js:273-315,
`fixMissingSections` lint/index.js:324-342) -/

/-- `s.replace(pat, repl)` for a plain (non-regex) pattern: first occurrence
only. -/
def jsReplaceFirst (s pat repl : String) : String :=
  match jsSplit pat s with
  | [] => s
  | [x] => x
  | x :: rest => x ++ repl ++ String.intercalate pat rest

/-- `filename.replace` with the anchored pattern `^TKT-\d+-`: strip a leading
`TKT-<digits>-`. -/
def stripTktNumPrefix (s : String) : String :=
  match s.data with
  | 'T' :: 'K' :: 'T' :: '-' :: rest =>
    let ds := rest.takeWhile Char.isDigit
    let after := rest.dropWhile Char.isDigit
    if ds ≠ [] ∧ after.head? = some '-' then ⟨after.tail⟩ else s
  | _ => s

/-- `filename.match(/^(TKT-\d+)/)` (lint/index.js:303): the leading
`TKT-<digits>` group, if the filename starts with one. -/
def idFromFilename (filename : String) : Option String :=
  match filename.data with
  | 'T' :: 'K' :: 'T' :: '-' :: rest =>
    let ds := rest.takeWhile Char.isDigit
    if ds ≠ [] then some ⟨'T' :: 'K' :: 'T' :: '-' :: ds⟩ else none
  | _ => none

/-- The slug base text (lint/index.js:281): `filename.replace('.md', '')`
followed by stripping the `^TKT-\d+-` prefix. -/
def filenameBase (filename : String) : String :=
  stripTktNumPrefix (jsReplaceFirst filename ".md" "")

/-- `[a-z0-9]`. -/
def isSlugChar (c : Char) : Bool := ('a' ≤ c ∧ c ≤ 'z') ∨ ('0' ≤ c ∧ c ≤ '9')

/-- Collapse runs of `'-'` to a single `'-'`. -/
def collapseDashes : List Char → List Char
  | [] => []
  | [c] => [c]
  | c :: c' :: rest =>
    if c = '-' ∧ c' = '-' then collapseDashes (c' :: rest)
    else c :: collapseDashes (c' :: rest)

/-- `title.toLowerCase().replace(/[^a-z0-9]+/g, '-').replace(/^-+|-+$/g, '')`
(lint/index.js:283-284). Replacing each excluded character by `'-'` and then
collapsing `'-'`-runs is the same as replacing each excluded *run* by one
`'-'`, because `'-'` is itself excluded. -/
def slugify (t : String) : String :=
  let dashed := collapseDashes ((jsToLower t).data.map fun c => if isSlugChar c then c else '-')
  ⟨((dashed.dropWhile (· = '-')).reverse.dropWhile (· = '-')).reverse⟩

/-- `fixMissingFrontmatter` (lint/index.js:273-315): one pass over
`missingFields` in order, each field getting its generated value — the
template default when the template frontmatter has the key (`defaults[field]
!== undefined`), otherwise the per-field fallback. Note the `id` case changes
nothing when the filename has no `TKT-<digits>` prefix. -/
def fixMissingFrontmatter (fm : List (String × String)) (missingFields : List String)
    (cfg : LintConfig) (filename : String) (now : String) : List (String × String) :=
  missingFields.foldl (fun acc field =>
    if field = "slug" then
      let title :=
        match jsGet acc "title" with
        | some t => if t ≠ "" then t else filenameBase filename
        | none => filenameBase filename
      let slug :=
        match jsGet acc "id" with
        | some idv => if idv ≠ "" then idv ++ "-" ++ slugify title else slugify title
        | none => slugify title
      jsSet acc "slug" slug
    else if field = "created_at" ∨ field = "updated_at" then jsSet acc field now
    else
      match jsGet cfg.frontmatterDefaults field with
      | some v => jsSet acc field v
      | none =>
        if field = "status" then
          jsSet acc field
            (match cfg.status_options with
             | some (s :: _) => if s ≠ "" then s else "open"
             | _ => "open")
        else if field = "priority" then jsSet acc field "medium"
        else if field = "title" then
          jsSet acc field ⟨(filenameBase filename).data.map fun c => if c = '-' then ' ' else c⟩
        else if field = "id" then
          match idFromFilename filename with
          | some idv => jsSet acc field idv
          | none => acc
        else jsSet acc field "") fm

/-- `fixMissingSections` (lint/index.js:324-342): append each missing section
at the end with the template's default body, or the TODO placeholder
(`sectionDefaults[section] || '\nTODO: ...'` — a present-but-empty default
also falls back). -/
def fixMissingSections (content : String) (missingSections : List String)
    (cfg : LintConfig) : String :=
  let start := if content ≠ "" ∧ ¬ jsEndsWith content "\n" then content ++ "\n" else content
  missingSections.foldl (fun acc sectionName =>
    let defaultContent :=
      match jsGet cfg.sectionDefaults sectionName with
      | some v => if v ≠ "" then v else "\nTODO: Add content for this section\n"
      | none => "\nTODO: Add content for this section\n"
    acc ++ "\n## " ++ sectionName ++ defaultContent) start

/-- The missing required frontmatter fields (lint/index.js:399-404). -/
def missingFrontmatterFields (fm : List (String × String)) (requiredFields : List String) :
    List String :=
  requiredFields.filter fun field => ¬ truthy (jsGet fm field)

/-- The predicate of the post-fix error filter (lint/index.js:438-441): keep
an error iff it is not a missing-section / missing-field error. -/
def keptAfterFix (e : String) : Bool :=
  ¬ jsStartsWith e "Missing required section:" ∧
    ¬ jsStartsWith e "Missing required frontmatter field:"

/-- The `Fixed …` warning message (lint/index.js:443-451). -/
def fixSuccessMessage (nf ns : Nat) : String :=
  "Fixed " ++ String.intercalate " and "
    ((if nf > 0 then [toString nf ++ " missing frontmatter fields"] else []) ++
     (if ns > 0 then [toString ns ++ " missing sections"] else []))

/-- `validateTicketFile` (lint/index.js:353-472). The outer `try/catch` turns
every throw inside into a `Failed to read file: …` error entry, so the
function always returns a `LintResult`; in the model the `.ok none` outcome of
`yamlLoad` (js-yaml returning `undefined`/`null`) is the path where the later
`frontmatter[field]` accesses would throw a `TypeError` that the catch absorbs
(the modelled message elides the engine-specific TypeError text). In fix
mode the written text is `'---\n' + yaml.dump(fixedFrontmatter) + '---' +
fixMissingSections(...)`; the model returns only the `LintResult`, whose
`errors` are filtered through `keptAfterFix` exactly when the write happened.
`lintOkBranch` is the body of the function once the frontmatter has parsed to
an object (lint/index.js:388-471), factored out by name. -/
def lintOkBranch (writeOk : Bool) (filename : String) (cfg : LintConfig)
    (requiredFields requiredSections : List String) (fm : List (String × String))
    (ticketContent : String) (fixMode : Bool) : LintResult :=
  let fmErrors := validateFrontmatterModel fm filename cfg requiredFields
  let sec := validateSectionsModel ticketContent requiredSections
  let errors0 := fmErrors ++ sec.1
  let missingFF := missingFrontmatterFields fm requiredFields
  let fixOut :=
    if fixMode ∧ (sec.2 ≠ [] ∨ missingFF ≠ []) then
      if writeOk then
        (errors0.filter keptAfterFix,
         [fixSuccessMessage missingFF.length sec.2.length], true)
      else (errors0 ++ ["Failed to write fixes: write error"], ([] : List String), false)
    else (errors0, [], false)
  let warnTodo :=
    if jsIncludes ticketContent "TODO" ∨ jsIncludes ticketContent "FIXME" then
      ["Contains TODO or FIXME comments"]
    else []
  let warnTitle :=
    match jsGet fm "title" with
    | some t => if t ≠ "" ∧ t.data.length > 80 then ["Title is longer than 80 characters"] else []
    | none => []
  ⟨filename, fixOut.1, fixOut.2.1 ++ warnTodo ++ warnTitle, fixOut.2.2, sec.2⟩

def validateTicketFileModel (yamlLoad : String → Except String (Option (List (String × String))))
    (writeOk : Bool) (content filename : String) (cfg : LintConfig)
    (requiredFields requiredSections : List String) (fixMode : Bool) : LintResult :=
  if ¬ jsStartsWith content "---" then
    ⟨filename, ["File must start with YAML frontmatter (---)"], [], false, []⟩
  else
    let parts := jsSplit "---" content
    if parts.length < 3 then
      ⟨filename, ["Invalid frontmatter format. Must be enclosed in --- delimiters"], [], false, []⟩
    else
      match yamlLoad (parts.getD 1 "") with
      | .error m => ⟨filename, ["Invalid YAML frontmatter: " ++ m], [], false, []⟩
      | .ok none => ⟨filename, ["Failed to read file: TypeError on undefined frontmatter"], [], false, []⟩
      | .ok (some fm) =>
        lintOkBranch writeOk filename cfg requiredFields requiredSections fm
          (String.intercalate "---" (parts.drop 2)) fixMode

/-- Modelled from the spec: js-yaml `load` is an external library
(`import yaml from 'js-yaml'`); ticket frontmatter is a flat `key: value`
mapping, for which `load` returns the object with those keys (later duplicate
keys overwrite earlier ones) and returns `undefined` for an all-blank
document. Used to instantiate `yamlLoad` on concrete inputs. -/
def yamlLoadFlat (s : String) : Except String (Option (List (String × String))) :=
  let lines := (jsLines s).filter fun l => jsTrim l ≠ ""
  if lines = [] then .ok none
  else
    .ok (some (lines.foldl (fun acc l =>
      match splitOnChar ':' l.data with
      | [] => acc
      | [_] => acc
      | k :: restParts => jsSet acc (jsTrim ⟨k⟩) (jsTrim ⟨List.intercalate [':'] restParts⟩)) []))

/-- A concrete rule set: the default enumerations (lint/index.js:116-117) and
a template providing default bodies for the two standard sections. -/
def cfgEx : LintConfig :=
  { status_options := some ["open", "in_progress", "review", "done"]
    priority_options := some ["low", "medium", "high", "urgent"]
    sectionDefaults := [("Description", "\nTemplate default description body.\n"),
                        ("Acceptance Criteria", "\n- template criterion one\n")]
    frontmatterDefaults := [] }

/-- The default required frontmatter fields (lint/index.js:73). -/
def reqFieldsEx : List String :=
  ["id", "title", "slug", "status", "priority", "created_at", "updated_at"]

/-- Two required sections. -/
def reqSectionsEx : List String := ["Description", "Acceptance Criteria"]

/-- A fully compliant ticket file for `cfgEx` / `reqFieldsEx` /
`reqSectionsEx`. -/
def compliantContent : String :=
  "---\nid: TKT-001\ntitle: Example ticket\nslug: TKT-001-example-ticket\nstatus: open\npriority: medium\ncreated_at: 2024-01-01T00:00:00.000Z\nupdated_at: 2024-01-02T00:00:00.000Z\n---\n\n## Description\n\nA sufficiently long description body.\n\n## Acceptance Criteria\n\n- plenty of criteria text here\n"

/-- Frontmatter missing exactly `slug` and `status` (spec §8,
fix-then-validate convergence). -/
def fmMissingSlugStatus : List (String × String) :=
  [("id", "TKT-003"), ("title", "Sample ticket"), ("priority", "low"),
   ("created_at", "2024-01-01T00:00:00.000Z"), ("updated_at", "2024-01-02T00:00:00.000Z")]

/-- A file whose only frontmatter key is a title, under a filename with no
`TKT-` prefix: its missing `id` cannot be generated by the fixer
(lint/index.js:302-307 leaves the field unset when the filename regex
misses). -/
def contentNoId : String :=
  "---\ntitle: Some title\n---\n\n## Description\n\nA long enough body of text.\n"

/-- A ticket file whose frontmatter is exactly `fmMissingSlugStatus`. -/
def fileMissingSlugStatus : String :=
  "---\nid: TKT-003\ntitle: Sample ticket\npriority: low\ncreated_at: 2024-01-01T00:00:00.000Z\nupdated_at: 2024-01-02T00:00:00.000Z\n---\n\n## Description\n\nA sufficiently long description body.\n"

/-! ## Specification-side definitions used to settle claims -/

/-- Modelled from the spec (§8 Round trip): "text identical to the original
except for the refreshed `updated_at` line" — the original text with every
`updated_at` line rewritten to the new instant. -/
def specRefreshUpdatedAt (original ts : String) : String :=
  String.intercalate "\n" ((jsLines original).map fun l =>
    if jsStartsWith l "updated_at:" then "updated_at: " ++ ts else l)

/-- A concrete valid parsed document whose header carries a stale
`updated_at`. -/
def tdStale : ParsedTicket :=
  { metadata := [("id", "TKT-001"), ("updated_at", "2020-05-05T00:00:00.000Z")]
    yamlLines := ["id: TKT-001", "updated_at: 2020-05-05T00:00:00.000Z"]
    contentLines := ["", "## Description", "", "Old body.", ""]
    fullContent := "---\nid: TKT-001\nupdated_at: 2020-05-05T00:00:00.000Z\n---\n\n## Description\n\nOld body.\n"
    invalidLines := []
    warnMissingId := false
    warnMissingTitle := true }

/-- A concrete parsed document with an id and an existing slug line, used to
witness the slug-update behaviour. -/
def tdSlug : ParsedTicket :=
  { metadata := [("id", "TKT-002"), ("title", "T")]
    yamlLines := ["id: TKT-002", "title: T", "slug: TKT-002-old", "updated_at: OLD"]
    contentLines := ["x"]
    fullContent := "F"
    invalidLines := []
    warnMissingId := false
    warnMissingTitle := false }

/-! ## Claims -/

/-- C1 (counterexample): on the valid parsed document `tdStale` (shown to be
exactly what the parser produces from its own text), `updateTicket` with an
empty updates map takes the early `No updates to apply` return (ticket.js:198-200)
and writes nothing, so the file text is *not* the original with the
`updated_at` line refreshed — that line still holds the stale instant. -/
theorem claim_C1_counterexample :
    parseTicketContent tdStale.fullContent = .ok tdStale ∧
    resultingFileText tdStale.fullContent
        (updateTicketModel tdStale [] "2026-01-01T00:00:00.000Z") ≠
      specRefreshUpdatedAt tdStale.fullContent "2026-01-01T00:00:00.000Z" := by
  exact ⟨rfl, by decide⟩

/-- C1 (amended): calling `updateTicket` with an empty updates map returns
success with `No updates to apply` and performs no write at all, so the file
text — including the stale `updated_at` line — is entirely unchanged. -/
theorem claim_C1 (td : ParsedTicket) (ts : String) :
    updateTicketModel td [] ts = .noWrite "No updates to apply" ∧
    resultingFileText td.fullContent (updateTicketModel td [] ts) = td.fullContent :=
  ⟨rfl, rfl⟩

/-- C2 (counterexample): the empty input, with the tickets directory present,
is "not all digits after cleaning" yet `resolveTicketId` returns `null`
instead of throwing — the `!input` guard (ticket.js:13-15) runs before any
format validation. -/
theorem claim_C2_counterexample :
    wellFormedId "" = false ∧ resolveTicketId true [] "" = .ok none :=
  ⟨by decide, rfl⟩

/-- C2 (amended): with the tickets directory present, every *non-empty* input
that after trimming, upper-casing and stripping an optional `TKT-` prefix is
not all digits makes `resolveTicketId` throw the `Invalid ticket ID format`
error; a missing tickets directory always yields `null` without throwing; and
a well-formed id with no matching `.md` file yields `null`. -/
theorem claim_C2 (dirFiles : List String) (input : String) :
    (input ≠ "" → wellFormedId input = false →
      resolveTicketId true dirFiles input =
        .error ("Invalid ticket ID format: " ++ input ++
          ". Expected numeric ID or TKT-XXX format.")) ∧
    resolveTicketId false dirFiles input = .ok none ∧
    (wellFormedId input = true →
      (∀ f ∈ dirFiles.filter (fun f => jsEndsWith f ".md"),
        ¬ jsStartsWith f (canonicalId input)) →
      resolveTicketId true dirFiles input = .ok none) := by
  refine ⟨fun h0 hbad => ?_, ?_, fun hok hnone => ?_⟩
  · unfold resolveTicketId
    rw [if_neg h0, if_neg (by simp)]
    simp [hbad]
  · unfold resolveTicketId
    split <;> simp
  · unfold resolveTicketId
    by_cases h0 : input = ""
    · rw [if_pos h0]
    · rw [if_neg h0, if_neg (by simp)]
      have hfind : (dirFiles.filter (fun f => jsEndsWith f ".md")).find?
          (fun file => jsStartsWith file (canonicalId input)) = none := by
        rw [List.find?_eq_none]
        intro x hx
        simpa using hnone x hx
      simp [hok, hfind]

/-- Witness for C2: concrete instances of all three branches — `x7` throws
when the directory exists, anything returns `null` when it does not, and the
well-formed `9` with no matching file returns `null`. -/
theorem claim_C2_witness :
    resolveTicketId true ["TKT-001-a.md"] "x7" =
      .error "Invalid ticket ID format: x7. Expected numeric ID or TKT-XXX format." ∧
    resolveTicketId false ["TKT-001-a.md"] "x7" = .ok none ∧
    resolveTicketId true ["TKT-001-a.md"] "9" = .ok none := by
  refine ⟨?_, (claim_C2 ["TKT-001-a.md"] "x7").2.1, ?_⟩
  · exact (claim_C2 ["TKT-001-a.md"] "x7").1 (by decide) (by decide)
  · exact (claim_C2 ["TKT-001-a.md"] "9").2.2 (by decide) (by decide)

/-- C4: resolving `7`, `007`, `TKT-007` and `tkt-007` are the same lookup —
each cleans to the canonical id `TKT-007` — and against a directory holding
`TKT-007-foo.md` they all return that same identity. -/
theorem claim_C4 (dirFiles : List String) :
    resolveTicketId true dirFiles "7" = resolveTicketId true dirFiles "007" ∧
    resolveTicketId true dirFiles "007" = resolveTicketId true dirFiles "TKT-007" ∧
    resolveTicketId true dirFiles "TKT-007" = resolveTicketId true dirFiles "tkt-007" ∧
    canonicalId "7" = "TKT-007" ∧
    resolveTicketId true ["TKT-007-foo.md"] "7" =
      .ok (some ⟨"TKT-007", "TKT-007-foo.md"⟩) :=
  ⟨rfl, rfl, rfl, rfl, rfl⟩

/-- C10: when the tickets directory does not exist, `resolveTicketId` returns
`null` for every input — including non-numeric ones — because the existence
check (ticket.js:20-22) runs before the format validation (ticket.js:35-37). -/
theorem claim_C10 (dirFiles : List String) (input : String) :
    resolveTicketId false dirFiles input = .ok none := by
  unfold resolveTicketId
  split <;> simp


/-! ### C8: slug updates are stored id-prefixed -/

lemma jsStartsWith_updated_ne_slug (ts : String) :
    jsStartsWith ("updated_at: " ++ ts) "slug:" = false := rfl

lemma jsStartsWith_title_ne_slug (x : String) :
    jsStartsWith ("title: " ++ x) "slug:" = false := rfl

lemma updateYamlLoop_fst (tid : String) (sU tU : Option String) (ts : String)
    (lines : List String) :
    (updateYamlLoop tid sU tU ts lines).1 = lines.map (transformYamlLine tid sU tU ts) := by
  induction lines with
  | nil => rfl
  | cons line rest ih =>
    simp only [updateYamlLoop, List.map_cons, transformYamlLine]
    split_ifs <;> simp [ih]

lemma updateYamlLoop_updatedSlug (tid : String) (sU tU : Option String) (ts : String)
    (lines : List String) :
    (updateYamlLoop tid sU tU ts lines).2.2.1 =
      lines.any fun l => !jsStartsWith l "updated_at:" && (jsStartsWith l "slug:" && truthy sU) := by
  induction lines with
  | nil => rfl
  | cons line rest ih =>
    simp only [updateYamlLoop, List.any_cons]
    split_ifs with h1 h2 h3 <;> simp_all

lemma eq_of_mem_ite_singleton {l x : String} {c : Prop} [Decidable c]
    (h : l ∈ (if c then [x] else [])) : l = x := by
  split_ifs at h with hc
  · simpa using h
  · simp at h

lemma finalYamlLines_decomp (md : List (String × String)) (yls : List String)
    (updates : List (String × String)) (ts : String) :
    finalYamlLines md yls updates ts =
      yls.map (transformYamlLine (jsGetOr md "id" "TKT-000") (jsGet updates "slug")
        (jsGet updates "title") ts) ++
      ((if ¬ (updateYamlLoop (jsGetOr md "id" "TKT-000") (jsGet updates "slug")
            (jsGet updates "title") ts yls).2.1 = true
        then ["updated_at: " ++ ts] else []) ++
       (if truthy (jsGet updates "slug") = true ∧
           ¬ (updateYamlLoop (jsGetOr md "id" "TKT-000") (jsGet updates "slug")
             (jsGet updates "title") ts yls).2.2.1 = true
        then ["slug: " ++ jsGetOr md "id" "TKT-000" ++ "-" ++ (jsGet updates "slug").getD ""]
        else []) ++
       (if truthy (jsGet updates "title") = true ∧
           ¬ (updateYamlLoop (jsGetOr md "id" "TKT-000") (jsGet updates "slug")
             (jsGet updates "title") ts yls).2.2.2 = true
        then ["title: " ++ formatTitle ((jsGet updates "title").getD "")] else [])) := by
  simp only [finalYamlLines, updateYamlLoop_fst]
  split_ifs <;> simp [List.append_assoc]

lemma finalYamlLines_slug (md : List (String × String)) (yls : List String)
    (updates : List (String × String)) (ts s tid : String)
    (hs : jsGet updates "slug" = some s) (hs0 : s ≠ "")
    (hid : jsGetOr md "id" "TKT-000" = tid) :
    ("slug: " ++ tid ++ "-" ++ s) ∈ finalYamlLines md yls updates ts ∧
    ∀ l ∈ finalYamlLines md yls updates ts,
      jsStartsWith l "slug:" = true → l = "slug: " ++ tid ++ "-" ++ s := by
  have htr : truthy (jsGet updates "slug") = true := by simp [hs, truthy, hs0]
  have hgetD : (jsGet updates "slug").getD "" = s := by simp [hs]
  rw [finalYamlLines_decomp, hid, hgetD]
  set tU := jsGet updates "title" with htU
  set M := yls.map (transformYamlLine tid (jsGet updates "slug") tU ts) with hM
  set A := (updateYamlLoop tid (jsGet updates "slug") tU ts yls).2.2.1 with hA
  have hline : ∀ x ∈ M, jsStartsWith x "slug:" = true → x = "slug: " ++ tid ++ "-" ++ s := by
    intro x hx hxs
    rw [hM] at hx
    obtain ⟨y, hy, rfl⟩ := List.mem_map.mp hx
    unfold transformYamlLine at hxs ⊢
    split_ifs at hxs ⊢ with h1 h2 h3
    · rw [jsStartsWith_updated_ne_slug] at hxs; exact absurd hxs (by simp)
    · rw [hgetD]
    · rw [jsStartsWith_title_ne_slug] at hxs; exact absurd hxs (by simp)
    · rw [htr, Bool.and_true] at h2
      exact absurd hxs h2
  constructor
  · by_cases hAv : A = true
    · -- slug line was rewritten in place
      rw [hA, updateYamlLoop_updatedSlug] at hAv
      obtain ⟨l, hl, hcond⟩ := List.any_eq_true.mp hAv
      simp only [Bool.and_eq_true, Bool.not_eq_true'] at hcond
      have htf : transformYamlLine tid (jsGet updates "slug") tU ts l =
          "slug: " ++ tid ++ "-" ++ s := by
        unfold transformYamlLine
        rw [if_neg (by simp [hcond.1]), if_pos (by simp [hcond.2.1, hcond.2.2]), hgetD]
      exact List.mem_append_left _ (hM ▸ List.mem_map.mpr ⟨l, hl, htf⟩)
    · -- slug line was appended
      apply List.mem_append_right
      apply List.mem_append_left
      apply List.mem_append_right
      rw [if_pos ⟨htr, hAv⟩]
      simp
  · intro l hl hstart
    rcases List.mem_append.mp hl with hm | hm
    · exact hline l hm hstart
    · rcases List.mem_append.mp hm with hm' | hm'
      · rcases List.mem_append.mp hm' with hm'' | hm''
        · rw [eq_of_mem_ite_singleton hm''] at hstart
          rw [jsStartsWith_updated_ne_slug] at hstart
          exact absurd hstart (by simp)
        · exact eq_of_mem_ite_singleton hm''
      · rw [eq_of_mem_ite_singleton hm'] at hstart
        rw [jsStartsWith_title_ne_slug] at hstart
        exact absurd hstart (by simp)

/-- C8: whenever `updateTicket` applies a (non-blank) slug update to a
document whose own `id` field is present, it writes a file in which the slug
header value is `<id>-<slugText>` — that line is present, and every `slug:`
line of the written header holds exactly that id-prefixed value, never the
bare slug text. -/
theorem claim_C8 (td : ParsedTicket) (updates : List (String × String)) (ts s tid : String)
    (hs : jsGet updates "slug" = some s) (hs0 : s ≠ "") (hst : jsTrim s ≠ "")
    (hid : jsGet td.metadata "id" = some tid) (hid0 : tid ≠ "") :
    updateTicketModel td updates ts =
      .write (some (tid ++ "-" ++ jsTrim s ++ ".md"))
        (String.intercalate "\n" (["---"] ++ finalYamlLines td.metadata td.yamlLines updates ts ++
          ["---"] ++ applySectionUpdates td.contentLines updates)) ∧
    ("slug: " ++ tid ++ "-" ++ s) ∈ finalYamlLines td.metadata td.yamlLines updates ts ∧
    ∀ l ∈ finalYamlLines td.metadata td.yamlLines updates ts,
      jsStartsWith l "slug:" = true → l = "slug: " ++ tid ++ "-" ++ s := by
  have hgetor : jsGetOr td.metadata "id" "TKT-000" = tid := by
    unfold jsGetOr
    rw [hid]
    exact if_pos hid0
  have hne : updates ≠ [] := by
    intro h
    rw [h] at hs
    simp [jsGet] at hs
  have hslug := finalYamlLines_slug td.metadata td.yamlLines updates ts s tid hs hs0 hgetor
  refine ⟨?_, hslug.1, hslug.2⟩
  unfold updateTicketModel
  rw [if_neg (by simpa using hne)]
  simp only [hs, hgetor, if_neg hst, if_pos hs0]
/-- Witness for C8: on `tdSlug` (id `TKT-002`, existing slug line), updating
the slug to `new-name` stores `slug: TKT-002-new-name`. -/
theorem claim_C8_witness :
    ("slug: TKT-002-new-name" : String) ∈
      finalYamlLines tdSlug.metadata tdSlug.yamlLines [("slug", "new-name")] "TS" := by
  have h := (claim_C8 tdSlug [("slug", "new-name")] "TS" "new-name" "TKT-002"
    rfl (by decide) (by decide) rfl (by decide)).2.1
  exact h

/-! ### C6 and C7: section replacement -/

/-- `jsFindIndex` finds nothing iff the predicate fails on every element. -/
lemma jsFindIndex_eq_none_iff {α : Type _} {p : α → Bool} {l : List α} :
    jsFindIndex p l = none ↔ ∀ x ∈ l, p x = false := by
  induction l with
  | nil => simp [jsFindIndex]
  | cons x rest ih =>
    by_cases h : p x <;> simp [jsFindIndex, h, ih]

/-- What `jsFindIndex p l = some i` says about `l`: a match at `i` and no
match before it. -/
lemma jsFindIndex_spec {α : Type _} {p : α → Bool} {l : List α} {i : Nat}
    (h : jsFindIndex p l = some i) :
    ∃ x, l[i]? = some x ∧ p x = true ∧
      ∀ j < i, ∀ y, l[j]? = some y → p y = false := by
  induction l generalizing i with
  | nil => simp [jsFindIndex] at h
  | cons x rest ih =>
    by_cases hx : p x
    · simp only [jsFindIndex, if_pos hx, Option.some.injEq] at h
      subst h
      exact ⟨x, by simp, hx, fun j hj => by omega⟩
    · simp only [jsFindIndex, if_neg hx, Option.map_eq_some'] at h
      obtain ⟨i', hi', rfl⟩ := h
      obtain ⟨y, hy, hpy, hmin⟩ := ih hi'
      refine ⟨y, by simpa using hy, hpy, fun j hj z hz => ?_⟩
      cases j with
      | zero =>
        simp only [List.getElem?_cons_zero, Option.some.injEq] at hz
        subst hz
        simpa using hx
      | succ j' =>
        rw [List.getElem?_cons_succ] at hz
        exact hmin j' (by omega) z hz

/-- Any match bounds the found index from above. -/
lemma jsFindIndex_min {α : Type _} (p : α → Bool) {l : List α} {j : Nat} {y : α}
    (hy : l[j]? = some y) (hp : p y = true) :
    ∃ k, jsFindIndex p l = some k ∧ k ≤ j := by
  induction l generalizing j with
  | nil => simp at hy
  | cons x rest ih =>
    by_cases hx : p x
    · exact ⟨0, by simp [jsFindIndex, hx], by omega⟩
    · cases j with
      | zero =>
        simp only [List.getElem?_cons_zero, Option.some.injEq] at hy
        subst hy
        exact absurd hp (by simpa using hx)
      | succ j' =>
        rw [List.getElem?_cons_succ] at hy
        obtain ⟨k, hk, hkle⟩ := ih hy
        exact ⟨k + 1, by simp [jsFindIndex, hx, hk], by omega⟩

/-- C6: `replaceSectionContent` is a no-op without error when no line
trim-equals the requested (valid) section header; and when the header is found
at the first matching index `i`, the lines strictly between `i` and the next
`##`-whitespace line (or end of document, `nextSectionIdx`) are replaced by
the new body framed by one blank line before and one after (`sectionFrame`).
The third and fourth conjuncts characterise `nextSectionIdx` as exactly the
next section line. -/
theorem claim_C6 (lines : List String) (sectionHeader newContent : String)
    (hh : jsTrim sectionHeader ≠ "") :
    ((∀ l ∈ lines, jsTrim l ≠ jsTrim sectionHeader) →
      replaceSectionContent lines sectionHeader newContent = .ok lines) ∧
    (∀ i, jsFindIndex (matchesHeader sectionHeader) lines = some i →
      i < nextSectionIdx lines i ∧
      nextSectionIdx lines i ≤ lines.length ∧
      (∀ j, i < j → j < nextSectionIdx lines i → ∀ l, lines[j]? = some l →
        ¬ (l ≠ "" ∧ isSectionLine l = true)) ∧
      (nextSectionIdx lines i < lines.length →
        ∃ l, lines[nextSectionIdx lines i]? = some l ∧ l ≠ "" ∧ isSectionLine l = true) ∧
      replaceSectionContent lines sectionHeader newContent =
        .ok (lines.take (i + 1) ++ sectionFrame newContent ++
          lines.drop (nextSectionIdx lines i))) := by
  constructor
  · intro hnone
    have hfind : jsFindIndex (matchesHeader sectionHeader) lines = none := by
      rw [jsFindIndex_eq_none_iff]
      intro x hx
      simp only [matchesHeader, Bool.and_eq_false_iff]
      right
      simpa using hnone x hx
    unfold replaceSectionContent replaceSectionCore
    rw [if_neg hh, hfind]
  · intro i hfind
    have hilen : i < lines.length := by
      obtain ⟨x, hx, -, -⟩ := jsFindIndex_spec hfind
      rw [List.getElem?_eq_some] at hx
      exact hx.1
    refine ⟨?_, ?_, ?_, ?_, ?_⟩
    · cases hfd : jsFindIndex (fun l => l != "" && isSectionLine l) (lines.drop (i + 1)) with
      | none => simp only [nextSectionIdx, hfd]; omega
      | some k => simp only [nextSectionIdx, hfd]; omega
    · cases hfd : jsFindIndex (fun l => l != "" && isSectionLine l) (lines.drop (i + 1)) with
      | none => simp only [nextSectionIdx, hfd]; exact le_rfl
      | some k =>
        simp only [nextSectionIdx, hfd]
        obtain ⟨x, hx, -, -⟩ := jsFindIndex_spec hfd
        rw [List.getElem?_drop, List.getElem?_eq_some] at hx
        have := hx.1
        omega
    · intro j hij hjn l hl
      intro ⟨hl0, hsec⟩
      have hj' : (lines.drop (i + 1))[j - (i + 1)]? = some l := by
        rw [List.getElem?_drop, show (i + 1) + (j - (i + 1)) = j by omega]
        exact hl
      cases hfd : jsFindIndex (fun l => l != "" && isSectionLine l) (lines.drop (i + 1)) with
      | none =>
        have hmem : l ∈ lines.drop (i + 1) := by
          rw [List.getElem?_eq_some] at hj'
          obtain ⟨hlt, hget⟩ := hj'
          exact hget ▸ List.getElem_mem hlt
        have := jsFindIndex_eq_none_iff.mp hfd l hmem
        simp [hl0, hsec] at this
      | some k =>
        simp only [nextSectionIdx, hfd] at hjn
        obtain ⟨x, hx, hpx, hmin⟩ := jsFindIndex_spec hfd
        have := hmin (j - (i + 1)) (by omega) l hj'
        simp [hl0, hsec] at this
    · intro hn
      cases hfd : jsFindIndex (fun l => l != "" && isSectionLine l) (lines.drop (i + 1)) with
      | none => simp only [nextSectionIdx, hfd] at hn; omega
      | some k =>
        simp only [nextSectionIdx, hfd] at hn ⊢
        obtain ⟨x, hx, hpx, -⟩ := jsFindIndex_spec hfd
        rw [List.getElem?_drop] at hx
        have hpx' : x ≠ "" ∧ isSectionLine x = true := by simpa using hpx
        exact ⟨x, hx, hpx'.1, hpx'.2⟩
    · unfold replaceSectionContent replaceSectionCore
      rw [if_neg hh, hfind]

/-- Witness for C6: a concrete replacement (match at index 1, next section at
index 4) and a concrete no-op. -/
theorem claim_C6_witness :
    replaceSectionContent ["intro", "## Description", "old1", "old2", "## Next", "tail"]
      "## Description" "new body" =
      .ok ["intro", "## Description", "", "new body", "", "## Next", "tail"] ∧
    replaceSectionContent ["a", "b"] "## Description" "new body" = .ok ["a", "b"] := by
  constructor
  · have h := ((claim_C6 ["intro", "## Description", "old1", "old2", "## Next", "tail"]
      "## Description" "new body" (by decide)).2 1 rfl).2.2.2.2
    rw [h]
    rfl
  · exact (claim_C6 ["a", "b"] "## Description" "new body" (by decide)).1 (by decide)

/-- C7: replacing the `## Description` body touches only the span between the
matched header and the next section line: the result is
`take (d+1) ++ frame ++ drop n`, so every line outside that span survives
byte-identically, and in particular the whole `## Acceptance Criteria` section
(`sectionSlice`) reappears intact as a contiguous block. -/
theorem claim_C7 (lines : List String) (newBody : String) (d a : Nat)
    (hfind : jsFindIndex (matchesHeader "## Description") lines = some d)
    (hd : lines[d]? = some "## Description")
    (ha : lines[a]? = some "## Acceptance Criteria") :
    replaceSectionContent lines "## Description" newBody =
      .ok (lines.take (d + 1) ++ sectionFrame newBody ++
        lines.drop (nextSectionIdx lines d)) ∧
    ∃ u v, lines.take (d + 1) ++ sectionFrame newBody ++
        lines.drop (nextSectionIdx lines d) =
      u ++ sectionSlice lines a ++ v := by
  have hrepl : replaceSectionContent lines "## Description" newBody =
      .ok (lines.take (d + 1) ++ sectionFrame newBody ++
        lines.drop (nextSectionIdx lines d)) := by
    unfold replaceSectionContent replaceSectionCore
    rw [if_neg (by decide), hfind]
  refine ⟨hrepl, ?_⟩
  have hq : (fun l => l != "" && isSectionLine l) "## Acceptance Criteria" = true := by decide
  have hqd : (fun l => l != "" && isSectionLine l) "## Description" = true := by decide
  rcases Nat.lt_trichotomy a d with had | rfl | hda
  · -- the AC section lies strictly before the Description header
    have hdrop : (lines.drop (a + 1))[d - (a + 1)]? = some "## Description" := by
      rw [List.getElem?_drop, show a + 1 + (d - (a + 1)) = d by omega]
      exact hd
    obtain ⟨k, hk, hkle⟩ :=
      jsFindIndex_min (fun l => l != "" && isSectionLine l) hdrop hqd
    have hm : nextSectionIdx lines a = a + 1 + k := by simp only [nextSectionIdx, hk]
    have hmd : nextSectionIdx lines a ≤ d := by omega
    have hma : a < nextSectionIdx lines a := by omega
    refine ⟨lines.take a,
      (lines.drop (nextSectionIdx lines a)).take (d + 1 - nextSectionIdx lines a) ++
        sectionFrame newBody ++ lines.drop (nextSectionIdx lines d), ?_⟩
    have h1 : lines.take (d + 1) = lines.take a ++ (lines.drop a).take (d + 1 - a) := by
      calc lines.take (d + 1) = lines.take (a + (d + 1 - a)) := by
            rw [show a + (d + 1 - a) = d + 1 by omega]
        _ = lines.take a ++ (lines.drop a).take (d + 1 - a) := List.take_add ..
    have h2 : (lines.drop a).take (d + 1 - a) =
        sectionSlice lines a ++
          (lines.drop (nextSectionIdx lines a)).take (d + 1 - nextSectionIdx lines a) := by
      conv_lhs => rw [← List.take_append_drop (nextSectionIdx lines a - a)
        ((lines.drop a).take (d + 1 - a))]
      congr 1
      · rw [List.take_take, sectionSlice, Nat.min_eq_left (by omega)]
      · rw [List.drop_take, List.drop_drop,
          show a + (nextSectionIdx lines a - a) = nextSectionIdx lines a by omega,
          show d + 1 - a - (nextSectionIdx lines a - a) = d + 1 - nextSectionIdx lines a by omega]
    rw [h1, h2]
    simp [List.append_assoc]
  · -- the two headers cannot share an index
    rw [hd] at ha
    simp at ha
  · -- the AC section lies at or after the end of the replaced span
    have hdrop : (lines.drop (d + 1))[a - (d + 1)]? = some "## Acceptance Criteria" := by
      rw [List.getElem?_drop, show d + 1 + (a - (d + 1)) = a by omega]
      exact ha
    obtain ⟨k, hk, hkle⟩ :=
      jsFindIndex_min (fun l => l != "" && isSectionLine l) hdrop hq
    have hn : nextSectionIdx lines d = d + 1 + k := by simp only [nextSectionIdx, hk]
    have hna : nextSectionIdx lines d ≤ a := by omega
    have haa : a < nextSectionIdx lines a := by
      cases hfa : jsFindIndex (fun l => l != "" && isSectionLine l) (lines.drop (a + 1)) with
      | none =>
        simp only [nextSectionIdx, hfa]
        rw [List.getElem?_eq_some] at ha
        have := ha.1
        omega
      | some k' => simp only [nextSectionIdx, hfa]; omega
    refine ⟨lines.take (d + 1) ++ sectionFrame newBody ++
        (lines.take a).drop (nextSectionIdx lines d),
      lines.drop (nextSectionIdx lines a), ?_⟩
    have h1 : lines.drop (nextSectionIdx lines d) =
        (lines.take a).drop (nextSectionIdx lines d) ++
          (sectionSlice lines a ++ lines.drop (nextSectionIdx lines a)) := by
      conv_lhs => rw [← List.take_append_drop (a - nextSectionIdx lines d)
        (lines.drop (nextSectionIdx lines d))]
      congr 1
      · rw [List.drop_take,
          show a - nextSectionIdx lines d = a - nextSectionIdx lines d by rfl]
      · rw [List.drop_drop, show nextSectionIdx lines d + (a - nextSectionIdx lines d) = a by omega,
          sectionSlice]
        conv_lhs => rw [← List.take_append_drop (nextSectionIdx lines a - a) (lines.drop a)]
        congr 1
        rw [List.drop_drop, show a + (nextSectionIdx lines a - a) = nextSectionIdx lines a by omega]
    rw [h1]
    simp [List.append_assoc]

/-- Witness for C7: Description at index 0, Acceptance Criteria at index 2;
the AC section (and everything after it) is untouched. -/
theorem claim_C7_witness :
    replaceSectionContent
      ["## Description", "old", "## Acceptance Criteria", "keep1", "keep2"]
      "## Description" "NEW" =
    .ok ["## Description", "", "NEW", "", "## Acceptance Criteria", "keep1", "keep2"] := by
  have h := claim_C7 ["## Description", "old", "## Acceptance Criteria", "keep1", "keep2"]
    "NEW" 0 2 rfl rfl rfl
  rw [h.1]
  rfl

/-! ### C5: parser failure conditions and header warnings -/

/-- The `invalidLines` accumulator of the header loop collects exactly the
bad-line numbers. -/
lemma parseHeaderAux_snd (ls : List String) : ∀ (i : Nat) (md : List (String × String))
    (inv : List Nat), (parseHeaderAux i md inv ls).2 = inv ++ badLineNums i ls := by
  induction ls with
  | nil => intro i md inv; simp [parseHeaderAux, badLineNums]
  | cons line rest ih =>
    intro i md inv
    by_cases ht : jsTrim line = ""
    · have hb : badHeaderLine line = false := by simp [badHeaderLine, ht]
      simp [parseHeaderAux, badLineNums, ht, hb, ih]
    · cases hsp : splitOnChar ':' line.data with
      | nil =>
        have hb : badHeaderLine line = false := by simp [badHeaderLine, ht, hsp]
        simp [parseHeaderAux, badLineNums, ht, hsp, hb, ih]
      | cons k restParts =>
        cases restParts with
        | nil =>
          have hb : badHeaderLine line = true := by simp [badHeaderLine, ht, hsp]
          simp [parseHeaderAux, badLineNums, ht, hsp, hb, ih]
        | cons r2 rps =>
          by_cases hk : jsTrim ⟨k⟩ = ""
          · have hb : badHeaderLine line = true := by simp [badHeaderLine, ht, hsp, hk]
            simp [parseHeaderAux, badLineNums, ht, hsp, hb, hk, ih]
          · have hb : badHeaderLine line = false := by simp [badHeaderLine, ht, hsp, hk]
            simp [parseHeaderAux, badLineNums, ht, hsp, hb, hk, ih]

/-- Membership characterisation of `badLineNums`. -/
lemma mem_badLineNums {j : Nat} (ls : List String) : ∀ i : Nat,
    j ∈ badLineNums i ls ↔
      ∃ k line, ls[k]? = some line ∧ badHeaderLine line = true ∧ j = i + k + 2 := by
  induction ls with
  | nil => intro i; simp [badLineNums]
  | cons line rest ih =>
    intro i
    by_cases hb : badHeaderLine line
    · simp only [badLineNums, if_pos hb, List.mem_cons, ih (i + 1)]
      constructor
      · rintro (rfl | ⟨k, l', hget, hbad, rfl⟩)
        · exact ⟨0, line, by simp, hb, by omega⟩
        · exact ⟨k + 1, l', by rw [List.getElem?_cons_succ]; exact hget, hbad, by omega⟩
      · rintro ⟨k, l', hget, hbad, rfl⟩
        cases k with
        | zero => left; omega
        | succ k' =>
          right
          rw [List.getElem?_cons_succ] at hget
          exact ⟨k', l', hget, hbad, by omega⟩
    · simp only [badLineNums, if_neg hb, ih (i + 1)]
      constructor
      · rintro ⟨k, l', hget, hbad, rfl⟩
        exact ⟨k + 1, l', by rw [List.getElem?_cons_succ]; exact hget, hbad, by omega⟩
      · rintro ⟨k, l', hget, hbad, rfl⟩
        cases k with
        | zero =>
          simp only [List.getElem?_cons_zero, Option.some.injEq] at hget
          subst hget
          exact absurd hbad (by simp [hb])
        | succ k' =>
          rw [List.getElem?_cons_succ] at hget
          exact ⟨k', l', hget, hbad, by omega⟩

/-- A list containing a non-whitespace character does not trim to nothing. -/
lemma trimChars_ne_nil {l : List Char} {c : Char} (hc : c ∈ l)
    (hw : c.isWhitespace = false) : trimChars l ≠ [] := by
  intro h
  unfold trimChars at h
  rw [List.reverse_eq_nil_iff, List.dropWhile_eq_nil_iff] at h
  have hsplit : l.takeWhile Char.isWhitespace ++ l.dropWhile Char.isWhitespace = l :=
    List.takeWhile_append_dropWhile Char.isWhitespace l
  have hcd : c ∈ l.dropWhile Char.isWhitespace := by
    rcases List.mem_append.mp (hsplit ▸ hc) with hm | hm
    · exact absurd (List.mem_takeWhile_imp hm) (by simp [hw])
    · exact hm
  have := h c (by simpa using hcd)
  simp [hw] at this

/-- String form of the previous lemma. -/
lemma jsTrim_ne_empty {s : String} {c : Char} (hc : c ∈ s.data)
    (hw : c.isWhitespace = false) : jsTrim s ≠ "" := by
  intro h
  exact trimChars_ne_nil hc hw (congrArg String.data h)

/-- The first split piece is the run before the first separator. -/
lemma splitOnChar_head? (sep : Char) (l : List Char) :
    (splitOnChar sep l).head? = some (l.takeWhile (· != sep)) := by
  induction l with
  | nil => rfl
  | cons c rest ih =>
    simp only [splitOnChar]
    cases hsp : splitOnChar sep rest with
    | nil => rw [hsp] at ih; simp at ih
    | cons p ps =>
      rw [hsp] at ih
      simp only [List.head?_cons, Option.some.injEq] at ih
      by_cases hc : c = sep
      · simp [hc, List.takeWhile_cons]
      · simp [hc, List.takeWhile_cons, ih]

/-- The first line of a text. -/
lemma jsLines_head? (s : String) :
    (jsLines s).head? = some ⟨s.data.takeWhile (· != '\n')⟩ := by
  simp [jsLines, splitOnChar_head?]

/-- If the first line is `---`, the text does not trim to empty — so the
`Ticket file is empty` check can only fire when one of the two structural
conditions already fails. -/
lemma content_trim_ne_of_head {content : String}
    (hh : (jsLines content).head? = some "---") : jsTrim content ≠ "" := by
  rw [jsLines_head?] at hh
  have hdata : content.data.takeWhile (· != '\n') = ['-', '-', '-'] :=
    congrArg String.data (Option.some.inj hh)
  have hmem : '-' ∈ content.data := by
    have hpre : content.data.takeWhile (· != '\n') <+: content.data := List.takeWhile_prefix _
    exact hpre.subset (by rw [hdata]; simp)
  exact jsTrim_ne_empty hmem (by decide)

/-- C5: `parseTicket` throws exactly when the text has fewer than 3 lines,
line 0 is not exactly `---`, or no later line is exactly `---` (the
`Ticket file is empty` throw only fires when one of those holds, since a text
whose first line is `---` cannot trim to empty); and on success a header line
is recorded in `invalidLines` — a warning, not a failure — precisely when it
is non-blank with no colon or an empty key, under its 1-based file line number
`i + 2`. Missing `id`/`title` likewise never affect success (the failure
conditions mention only the delimiters). -/
theorem claim_C5 (content : String) :
    ((∃ e, parseTicketContent content = .error e) ↔
      ((jsLines content).length < 3 ∨ (jsLines content).head? ≠ some "---" ∨
        "---" ∉ (jsLines content).drop 1)) ∧
    ∀ t, parseTicketContent content = .ok t →
      t.invalidLines = badLineNums 0 t.yamlLines ∧
      ∀ i : Nat, (i + 2) ∈ t.invalidLines ↔
        ∃ line, t.yamlLines[i]? = some line ∧ badHeaderLine line = true := by
  by_cases hE : jsTrim content = ""
  · have hP : parseTicketContent content = .error "Ticket file is empty" := by
      unfold parseTicketContent
      rw [if_pos hE]
    refine ⟨?_, ?_⟩
    · rw [hP]
      apply iff_of_true ⟨_, rfl⟩
      by_cases h3 : (jsLines content).length < 3
      · exact Or.inl h3
      · exact Or.inr (Or.inl fun hh => content_trim_ne_of_head hh hE)
    · intro t ht
      rw [hP] at ht
      cases ht
  · by_cases h3 : (jsLines content).length < 3
    · have hP : parseTicketContent content =
          .error "Invalid ticket format: file too short to contain valid frontmatter" := by
        simp only [parseTicketContent]
        rw [if_neg hE, if_pos h3]
      exact ⟨by rw [hP]; exact iff_of_true ⟨_, rfl⟩ (Or.inl h3),
        fun t ht => by rw [hP] at ht; cases ht⟩
    · by_cases hH : (jsLines content).head? = some "---"
      · have hH' : ¬ ((jsLines content).head? ≠ some "---") := by simpa using hH
        cases hF : jsFindIndex (fun line => line = "---") ((jsLines content).drop 1) with
        | none =>
          have hP : parseTicketContent content =
              .error "Invalid ticket format: missing closing YAML frontmatter delimiter (---)" := by
            simp only [parseTicketContent]
            rw [if_neg hE, if_neg h3, if_neg hH', hF]
          refine ⟨?_, fun t ht => by rw [hP] at ht; cases ht⟩
          rw [hP]
          apply iff_of_true ⟨_, rfl⟩
          refine Or.inr (Or.inr fun hmem => ?_)
          have := jsFindIndex_eq_none_iff.mp hF "---" hmem
          simp at this
        | some j =>
          have hP : parseTicketContent content = .ok
              { metadata := (parseHeaderAux 0 [] [] (((jsLines content).drop 1).take j)).1
                yamlLines := ((jsLines content).drop 1).take j
                contentLines := (jsLines content).drop (j + 2)
                fullContent := content
                invalidLines := (parseHeaderAux 0 [] [] (((jsLines content).drop 1).take j)).2
                warnMissingId :=
                  ¬ truthy (jsGet (parseHeaderAux 0 [] [] (((jsLines content).drop 1).take j)).1 "id")
                warnMissingTitle :=
                  ¬ truthy (jsGet (parseHeaderAux 0 [] [] (((jsLines content).drop 1).take j)).1 "title") } := by
            simp only [parseTicketContent]
            rw [if_neg hE, if_neg h3, if_neg hH', hF]
          refine ⟨?_, ?_⟩
          · rw [hP]
            apply iff_of_false (by rintro ⟨e, he⟩; cases he)
            intro hor
            rcases hor with h | h | h
            · exact h3 h
            · exact h hH
            · obtain ⟨x, hx, hpx, -⟩ := jsFindIndex_spec hF
              have hxeq : x = "---" := by simpa using hpx
              subst hxeq
              rw [List.getElem?_eq_some] at hx
              exact h (hx.2 ▸ List.getElem_mem hx.1)
          · intro t ht
            rw [hP] at ht
            have ht' := (Except.ok.inj ht).symm
            subst ht'
            refine ⟨by simpa using parseHeaderAux_snd (((jsLines content).drop 1).take j) 0 [] [], ?_⟩
            intro i
            have hinv : (parseHeaderAux 0 [] [] (((jsLines content).drop 1).take j)).2 =
                badLineNums 0 (((jsLines content).drop 1).take j) := by
              simpa using parseHeaderAux_snd (((jsLines content).drop 1).take j) 0 [] []
            show (i + 2) ∈ (parseHeaderAux 0 [] [] (((jsLines content).drop 1).take j)).2 ↔ _
            rw [hinv, mem_badLineNums (((jsLines content).drop 1).take j) 0]
            constructor
            · rintro ⟨k, line, hget, hbad, hk⟩
              have : k = i := by omega
              subst this
              exact ⟨line, hget, hbad⟩
            · rintro ⟨line, hget, hbad⟩
              exact ⟨i, line, hget, hbad, by omega⟩
      · have hH' : (jsLines content).head? ≠ some "---" := hH
        have hP : parseTicketContent content =
            .error "Invalid ticket format: missing opening YAML frontmatter delimiter (---)" := by
          simp only [parseTicketContent]
          rw [if_neg hE, if_neg h3, if_pos hH']
        exact ⟨by rw [hP]; exact iff_of_true ⟨_, rfl⟩ (Or.inr (Or.inl hH)),
          fun t ht => by rw [hP] at ht; cases ht⟩

/-- Witness for C5: a one-line text throws; a well-delimited text with one
bad header line parses with exactly line 2 recorded. -/
theorem claim_C5_witness :
    (∃ e, parseTicketContent "x" = .error e) ∧
    ∃ t, parseTicketContent "---\nbadline\nk: v\n---\nbody" = .ok t ∧
      (0 + 2) ∈ t.invalidLines ∧ ¬ (1 + 2) ∈ t.invalidLines := by
  constructor
  · exact (claim_C5 "x").1.mpr (Or.inl (by decide))
  · refine ⟨_, rfl, ?_, ?_⟩
    · have h3 := (claim_C5 "---\nbadline\nk: v\n---\nbody").2 _ rfl
      exact (h3.2 0).mpr ⟨"badline", rfl, by decide⟩
    · have h3 := (claim_C5 "---\nbadline\nk: v\n---\nbody").2 _ rfl
      intro hmem
      obtain ⟨line, hget, hbad⟩ := (h3.2 1).mp hmem
      have hline : "k: v" = line := Option.some.inj hget
      subst hline
      exact absurd hbad (by decide)

/-! ### C3 and C9: the validator and the fix pass -/

set_option maxRecDepth 40000

/-- Once the frontmatter parses to an object, the model is `lintOkBranch`. -/
lemma validateTicketFileModel_ok
    (yamlLoad : String → Except String (Option (List (String × String))))
    (writeOk : Bool) (content filename : String) (cfg : LintConfig)
    (requiredFields requiredSections : List String) (fm : List (String × String))
    (fixMode : Bool)
    (h1 : jsStartsWith content "---" = true)
    (h2 : ¬ (jsSplit "---" content).length < 3)
    (h3 : yamlLoad ((jsSplit "---" content).getD 1 "") = .ok (some fm)) :
    validateTicketFileModel yamlLoad writeOk content filename cfg requiredFields
        requiredSections fixMode =
      lintOkBranch writeOk filename cfg requiredFields requiredSections fm
        (String.intercalate "---" ((jsSplit "---" content).drop 2)) fixMode := by
  simp only [validateTicketFileModel]
  rw [if_neg (by simp [h1]), if_neg h2, h3]

/-- Without fix mode the errors are the frontmatter errors followed by the
section errors. -/
lemma lintOkBranch_noFix_errors (writeOk : Bool) (filename : String) (cfg : LintConfig)
    (reqF reqS : List String) (fm : List (String × String)) (tc : String) :
    (lintOkBranch writeOk filename cfg reqF reqS fm tc false).errors =
      validateFrontmatterModel fm filename cfg reqF ++ (validateSectionsModel tc reqS).1 := by
  simp [lintOkBranch]

/-- Without fix mode nothing is marked fixed. -/
lemma lintOkBranch_noFix_fixed (writeOk : Bool) (filename : String) (cfg : LintConfig)
    (reqF reqS : List String) (fm : List (String × String)) (tc : String) :
    (lintOkBranch writeOk filename cfg reqF reqS fm tc false).fixed = false := by
  simp [lintOkBranch]

/-- `missingSections` is set before (and untouched by) the fix block. -/
lemma lintOkBranch_missingSections (writeOk : Bool) (filename : String) (cfg : LintConfig)
    (reqF reqS : List String) (fm : List (String × String)) (tc : String) (fixMode : Bool) :
    (lintOkBranch writeOk filename cfg reqF reqS fm tc fixMode).missingSections =
      (validateSectionsModel tc reqS).2 := by
  simp [lintOkBranch]

/-- `filename` is set on entry. -/
lemma lintOkBranch_filename (writeOk : Bool) (filename : String) (cfg : LintConfig)
    (reqF reqS : List String) (fm : List (String × String)) (tc : String) (fixMode : Bool) :
    (lintOkBranch writeOk filename cfg reqF reqS fm tc fixMode).filename = filename := by
  simp [lintOkBranch]

/-- When the fix pass runs and the write succeeds, the errors are filtered
through `keptAfterFix` (lint/index.js:438-441). -/
lemma lintOkBranch_fix_errors (filename : String) (cfg : LintConfig)
    (reqF reqS : List String) (fm : List (String × String)) (tc : String)
    (hmiss : (validateSectionsModel tc reqS).2 ≠ [] ∨ missingFrontmatterFields fm reqF ≠ []) :
    (lintOkBranch true filename cfg reqF reqS fm tc true).errors =
      (validateFrontmatterModel fm filename cfg reqF ++
        (validateSectionsModel tc reqS).1).filter keptAfterFix := by
  simp [lintOkBranch, hmiss]

/-- A successful fix write sets `fixed` (lint/index.js:435). -/
lemma lintOkBranch_fix_fixed (filename : String) (cfg : LintConfig)
    (reqF reqS : List String) (fm : List (String × String)) (tc : String)
    (hmiss : (validateSectionsModel tc reqS).2 ≠ [] ∨ missingFrontmatterFields fm reqF ≠ []) :
    (lintOkBranch true filename cfg reqF reqS fm tc true).fixed = true := by
  simp [lintOkBranch, hmiss]

/-- With nothing missing, the fix block is skipped entirely. -/
lemma lintOkBranch_skip (writeOk : Bool) (filename : String) (cfg : LintConfig)
    (reqF reqS : List String) (fm : List (String × String)) (tc : String)
    (hs : (validateSectionsModel tc reqS).2 = [])
    (hf : missingFrontmatterFields fm reqF = []) :
    lintOkBranch writeOk filename cfg reqF reqS fm tc true =
      lintOkBranch writeOk filename cfg reqF reqS fm tc false := by
  simp [lintOkBranch, hs, hf]

/-- C3: for every input — any frontmatter-parser behaviour included —
`validateTicketFile` without fix mode returns a `LintResult` (it cannot throw:
every internal throw path lands in a catch that appends an error string)
carrying the given filename and `fixed = false`; and on the fully compliant
`compliantContent` it returns an empty error list. -/
theorem claim_C3 (yamlLoad : String → Except String (Option (List (String × String))))
    (writeOk : Bool) (content filename : String) (cfg : LintConfig)
    (requiredFields requiredSections : List String) :
    (validateTicketFileModel yamlLoad writeOk content filename cfg requiredFields
        requiredSections false).filename = filename ∧
    (validateTicketFileModel yamlLoad writeOk content filename cfg requiredFields
        requiredSections false).fixed = false ∧
    (validateTicketFileModel yamlLoadFlat true compliantContent "TKT-001-example-ticket.md"
        cfgEx reqFieldsEx reqSectionsEx false).errors = [] := by
  refine ⟨?_, ?_, by rfl⟩ <;>
    (simp only [validateTicketFileModel]
     split
     · rfl
     · split
       · rfl
       · split <;> simp [lintOkBranch])

/-- C9 (counterexample): a file missing only `id`, under a filename with no
`TKT-` prefix, cannot have its `id` fixed — `fixMissingFrontmatter` changes
nothing — yet the fix pass still removes the `Missing required frontmatter
field: id` error and reports `fixed = true`. So unresolved missing-item errors
do *not* remain, and `fixed` is not equivalent to "a change was made". -/
theorem claim_C9_counterexample :
    ("Missing required frontmatter field: id" ∈
      (validateTicketFileModel yamlLoadFlat true contentNoId "noid.md" cfgEx
        ["id"] [] false).errors) ∧
    ("Missing required frontmatter field: id" ∉
      (validateTicketFileModel yamlLoadFlat true contentNoId "noid.md" cfgEx
        ["id"] [] true).errors) ∧
    (validateTicketFileModel yamlLoadFlat true contentNoId "noid.md" cfgEx
        ["id"] [] true).fixed = true ∧
    fixMissingFrontmatter [("title", "Some title")] ["id"] cfgEx "noid.md"
      "2026-03-01T00:00:00.000Z" = [("title", "Some title")] := by
  refine ⟨?_, ?_, ?_, ?_⟩ <;> decide

/-- C9 (amended): after a fix pass writes, *all* missing-field and
missing-section errors are removed (whether or not the item could actually be
fixed) while errors of other kinds survive; `fixed` is true iff at least one
missing item was detected (the fix pass ran and the write succeeded); with
nothing missing the result is untouched; and a document missing `slug` and
`status` has both fields truthy after `fixMissingFrontmatter`, so re-validating
reports zero missing-field errors for those two keys. -/
theorem claim_C9 (yamlLoad : String → Except String (Option (List (String × String))))
    (content filename : String) (cfg : LintConfig)
    (requiredFields requiredSections : List String) (fm : List (String × String))
    (pre r : LintResult)
    (h1 : jsStartsWith content "---" = true)
    (h2 : ¬ (jsSplit "---" content).length < 3)
    (h3 : yamlLoad ((jsSplit "---" content).getD 1 "") = .ok (some fm))
    (hpre : pre = validateTicketFileModel yamlLoad true content filename cfg
      requiredFields requiredSections false)
    (hr : r = validateTicketFileModel yamlLoad true content filename cfg
      requiredFields requiredSections true) :
    ((pre.missingSections ≠ [] ∨ missingFrontmatterFields fm requiredFields ≠ []) →
      r.errors = pre.errors.filter keptAfterFix ∧
      (∀ e ∈ pre.errors, keptAfterFix e = true → e ∈ r.errors) ∧
      (∀ e ∈ r.errors, keptAfterFix e = true ∧ e ∈ pre.errors)) ∧
    (r.fixed = true ↔
      (pre.missingSections ≠ [] ∨ missingFrontmatterFields fm requiredFields ≠ [])) ∧
    ((pre.missingSections = [] ∧ missingFrontmatterFields fm requiredFields = []) →
      r = pre) ∧
    missingFrontmatterFields
      (fixMissingFrontmatter fmMissingSlugStatus
        (missingFrontmatterFields fmMissingSlugStatus reqFieldsEx) cfgEx
        "TKT-003-sample-ticket.md" "2026-03-01T00:00:00.000Z")
      ["slug", "status"] = [] := by
  subst hpre hr
  rw [validateTicketFileModel_ok yamlLoad true content filename cfg requiredFields
      requiredSections fm false h1 h2 h3,
    validateTicketFileModel_ok yamlLoad true content filename cfg requiredFields
      requiredSections fm true h1 h2 h3]
  rw [lintOkBranch_missingSections]
  refine ⟨?_, ?_, ?_, by rfl⟩
  · intro hmiss
    rw [lintOkBranch_fix_errors _ _ _ _ _ _ hmiss, lintOkBranch_noFix_errors]
    refine ⟨rfl, ?_, ?_⟩
    · intro e he hk
      exact List.mem_filter.mpr ⟨he, hk⟩
    · intro e he
      exact ⟨(List.mem_filter.mp he).2, (List.mem_filter.mp he).1⟩
  · by_cases hmiss : (validateSectionsModel
        (String.intercalate "---" ((jsSplit "---" content).drop 2)) requiredSections).2 ≠ [] ∨
        missingFrontmatterFields fm requiredFields ≠ []
    · rw [lintOkBranch_fix_fixed _ _ _ _ _ _ hmiss]
      simp [hmiss]
    · push_neg at hmiss
      rw [lintOkBranch_skip _ _ _ _ _ _ _ hmiss.1 hmiss.2, lintOkBranch_noFix_fixed]
      simp [hmiss.1, hmiss.2]
  · intro ⟨hs, hf⟩
    exact lintOkBranch_skip _ _ _ _ _ _ _ hs hf

/-- Witness for C9 on a concrete ticket missing `slug` and `status`. -/
theorem claim_C9_witness :
    (validateTicketFileModel yamlLoadFlat true fileMissingSlugStatus "TKT-003-sample-ticket.md"
        cfgEx reqFieldsEx reqSectionsEx true).errors =
      (validateTicketFileModel yamlLoadFlat true fileMissingSlugStatus "TKT-003-sample-ticket.md"
        cfgEx reqFieldsEx reqSectionsEx false).errors.filter keptAfterFix ∧
    (validateTicketFileModel yamlLoadFlat true fileMissingSlugStatus "TKT-003-sample-ticket.md"
        cfgEx reqFieldsEx reqSectionsEx true).fixed = true := by
  have h := claim_C9 yamlLoadFlat fileMissingSlugStatus "TKT-003-sample-ticket.md" cfgEx
    reqFieldsEx reqSectionsEx fmMissingSlugStatus _ _ (by decide) (by decide) rfl rfl rfl
  have hmiss : (validateTicketFileModel yamlLoadFlat true fileMissingSlugStatus
      "TKT-003-sample-ticket.md" cfgEx reqFieldsEx reqSectionsEx false).missingSections ≠ [] ∨
      missingFrontmatterFields fmMissingSlugStatus reqFieldsEx ≠ [] := Or.inr (by decide)
  exact ⟨(h.1 hmiss).1, h.2.1.mpr hmiss⟩

end Vibekit
